import Mathlib

/-!
Verification of the NGauge authentication gate (session tokens, constant-time
password comparison, fixed-window rate limiting) against a shallow embedding of
the JavaScript source in `api/auth/verify.js`, `server.js` and the auth-status
serverless function.

JavaScript strings are modelled as lists of characters (`JStr`); Node `Buffer`s
as lists of byte values (`List Nat`); the HMAC-SHA256 primitive is an abstract
parameter `hmac : JStr → JStr → JStr` (the source digests to lowercase hex, so
theorems that need it carry the hypotheses that the digest is colon-free ASCII
of byte length 64); `process.env` lookups are `Option JStr` parameters; each
call of `crypto.randomBytes(32).toString('hex')` is modelled by an explicit
`fresh` argument holding that call's random draw.
-/

namespace NGauge

/-- JavaScript strings, modelled as lists of characters. -/
abbrev JStr := List Char

/-! ### UTF-8 (Node `Buffer.from(string)` / `buffer.toString('utf-8')`) -/

/-- UTF-8 encoding of a single character (RFC 3629 byte layout). -/
def utf8EncodeChar (c : Char) : List Nat :=
  let n := c.toNat
  if n < 0x80 then [n]
  else if n < 0x800 then [0xC0 + n / 0x40, 0x80 + n % 0x40]
  else if n < 0x10000 then
    [0xE0 + n / 0x1000, 0x80 + n / 0x40 % 0x40, 0x80 + n % 0x40]
  else
    [0xF0 + n / 0x40000, 0x80 + n / 0x1000 % 0x40, 0x80 + n / 0x40 % 0x40,
     0x80 + n % 0x40]

/-- The bytes of a string, as `Buffer.from(s)` produces them. -/
def strToBytes (s : JStr) : List Nat := (s.map utf8EncodeChar).flatten

/-- Is `b` a UTF-8 continuation byte? -/
def contByte (b : Nat) : Bool := 0x80 ≤ b && b < 0xC0

/-- UTF-8 decoding worker: well-formed sequences decode to their code point,
malformed lead/continuation bytes to U+FFFD (the offending byte is reprocessed,
as in the WHATWG decoder Node uses). Each emitted character consumes at least
one byte, so `fuel = length + 1` makes the fuel irrelevant; it is there only to
give structural (hence kernel-reducible) recursion. -/
def utf8DecodeAux : Nat → List Nat → List Char
  | 0, _ => []
  | _, [] => []
  | fuel + 1, b :: bs =>
    if b < 0x80 then
      Char.ofNat b :: utf8DecodeAux fuel bs
    else if 0xC0 ≤ b && b < 0xE0 then
      match bs with
      | b1 :: bs2 =>
        if contByte b1 then
          Char.ofNat ((b - 0xC0) * 0x40 + (b1 - 0x80)) :: utf8DecodeAux fuel bs2
        else Char.ofNat 0xFFFD :: utf8DecodeAux fuel bs
      | [] => [Char.ofNat 0xFFFD]
    else if 0xE0 ≤ b && b < 0xF0 then
      match bs with
      | b1 :: b2 :: bs3 =>
        if contByte b1 && contByte b2 then
          Char.ofNat ((b - 0xE0) * 0x1000 + (b1 - 0x80) * 0x40 + (b2 - 0x80)) ::
            utf8DecodeAux fuel bs3
        else Char.ofNat 0xFFFD :: utf8DecodeAux fuel bs
      | _ => [Char.ofNat 0xFFFD]
    else if 0xF0 ≤ b && b < 0xF8 then
      match bs with
      | b1 :: b2 :: b3 :: bs4 =>
        if contByte b1 && contByte b2 && contByte b3 then
          Char.ofNat ((b - 0xF0) * 0x40000 + (b1 - 0x80) * 0x1000 +
            (b2 - 0x80) * 0x40 + (b3 - 0x80)) :: utf8DecodeAux fuel bs4
        else Char.ofNat 0xFFFD :: utf8DecodeAux fuel bs
      | _ => [Char.ofNat 0xFFFD]
    else Char.ofNat 0xFFFD :: utf8DecodeAux fuel bs

/-- UTF-8 decoding, as `buffer.toString('utf-8')`. -/
def utf8Decode (bs : List Nat) : List Char := utf8DecodeAux (bs.length + 1) bs

/-! ### Base64 (Node `Buffer.from(tok, 'base64')` / `buf.toString('base64')`) -/

/-- The base64 alphabet. -/
def b64Tbl : List Char :=
  "ABCDEFGHIJKLMNOPQRSTUVWXYZabcdefghijklmnopqrstuvwxyz0123456789+/".data

/-- Character for a sextet value. -/
def b64Char (k : Nat) : Char := b64Tbl.getD k 'A'

/-- Sextet value of a character; `none` for characters outside the alphabet
(Node's forgiving decoder skips those, including padding). -/
def b64Idx (c : Char) : Option Nat := b64Tbl.indexOf? c

/-- Base64 encoding of a byte list, with padding. -/
def b64EncodeBytes : List Nat → List Char
  | [] => []
  | [b0] => [b64Char (b0 / 4), b64Char (b0 % 4 * 16), '=', '=']
  | [b0, b1] =>
    [b64Char (b0 / 4), b64Char (b0 % 4 * 16 + b1 / 16), b64Char (b1 % 16 * 4), '=']
  | b0 :: b1 :: b2 :: rest =>
    b64Char (b0 / 4) :: b64Char (b0 % 4 * 16 + b1 / 16) ::
      b64Char (b1 % 16 * 4 + b2 / 64) :: b64Char (b2 % 64) :: b64EncodeBytes rest

/-- Reassemble bytes from a list of sextets; a trailing lone sextet is
discarded, as in Node's forgiving decoder. -/
def b64SexToBytes : List Nat → List Nat
  | s0 :: s1 :: s2 :: s3 :: rest =>
    (s0 * 4 + s1 / 16) :: (s1 % 16 * 16 + s2 / 4) :: (s2 % 4 * 64 + s3) ::
      b64SexToBytes rest
  | [s0, s1] => [s0 * 4 + s1 / 16]
  | [s0, s1, s2] => [s0 * 4 + s1 / 16, s1 % 16 * 16 + s2 / 4]
  | _ => []

/-- Base64 decoding of a character list (forgiving: non-alphabet characters,
including `=`, are skipped). -/
def b64DecodeBytes (s : List Char) : List Nat := b64SexToBytes (s.filterMap b64Idx)

/-- `Buffer.from(s).toString('base64')`. -/
def jsBtoa (s : JStr) : JStr := b64EncodeBytes (strToBytes s)

/-- `Buffer.from(s, 'base64').toString('utf-8')`. -/
def jsAtob (s : JStr) : JStr := utf8Decode (b64DecodeBytes s)

/-! ### `String.prototype.split`, `parseInt`, number-to-string -/

/-- JavaScript `s.split(sep)` for a one-character separator. -/
def jsSplit (sep : Char) : List Char → List (List Char)
  | [] => [[]]
  | c :: cs =>
    match jsSplit sep cs with
    | [] => [[]]
    | r :: rs => if c = sep then [] :: r :: rs else (c :: r) :: rs

/-- Whitespace skipped by `parseInt`. -/
def isJsSpace (c : Char) : Bool :=
  c = ' ' || c = '\t' || c = '\n' || c = '\r' || c = '\x0b' || c = '\x0c'

/-- Value of a digit string (callers ensure all characters are digits). -/
def digitsToNat (l : List Char) : Nat :=
  l.foldl (fun a c => a * 10 + (c.toNat - 48)) 0

/-- The leading-digits part of `parseInt`: `none` when no digit leads. -/
def jsParseIntCore (l : List Char) : Option Nat :=
  let ds := l.takeWhile Char.isDigit
  if ds.isEmpty then none else some (digitsToNat ds)

/-- JavaScript `parseInt(s, 10)`: skip whitespace, optional sign, leading
digits; `none` models `NaN`. -/
def jsParseInt (s : List Char) : Option Int :=
  match s.dropWhile isJsSpace with
  | [] => none
  | c :: rest =>
    if c = '-' then (jsParseIntCore rest).map (fun n => -(n : Int))
    else if c = '+' then (jsParseIntCore rest).map (fun n => (n : Int))
    else (jsParseIntCore (c :: rest)).map (fun n => (n : Int))

/-- Decimal digit character. -/
def digitChar (n : Nat) : Char := Char.ofNat (48 + n)

/-- Decimal printing worker; `fuel` only drives structural recursion and is
irrelevant once at least the number of digits (see `natToCharsAux_eq_natRep`). -/
def natToCharsAux (fuel n : Nat) (acc : List Char) : List Char :=
  match fuel with
  | 0 => acc
  | fuel + 1 =>
    if n < 10 then digitChar n :: acc
    else natToCharsAux fuel (n / 10) (digitChar (n % 10) :: acc)

/-- Decimal representation of a natural number. -/
def natToChars (n : Nat) : List Char := natToCharsAux (n + 1) n []

/-- Recursive specification of decimal printing (well-founded; used for
reasoning, with `natToChars` as the executable form). -/
def natRep (n : Nat) : List Char :=
  if n < 10 then [digitChar n]
  else natRep (n / 10) ++ [digitChar (n % 10)]
  termination_by n
  decreasing_by exact Nat.div_lt_self (by omega) (by omega)

/-- JavaScript number-to-string for integral values (template-literal
interpolation of a timestamp). -/
def intToChars (i : Int) : List Char :=
  if i < 0 then '-' :: natToChars (-i).toNat else natToChars i.toNat

/-! ### Session secret and token issuance
(`api/auth/verify.js` lines 22-53; identical in `server.js` lines 800-831 and
in the auth-status function.) -/

/-- `getSessionSecret()`: returns `process.env.SESSION_SECRET_KEY` when that is
a truthy (nonempty) string; otherwise returns
`crypto.randomBytes(32).toString('hex')` — a fresh random draw made at this
very call, modelled by the `fresh` argument. -/
def getSessionSecret (envSecret : Option JStr) (fresh : JStr) : JStr :=
  match envSecret with
  | some s => if s = [] then fresh else s
  | none => fresh

/-- `generateSessionToken()`: signs `timestamp:expiry` with HMAC-SHA256 and
base64-encodes `timestamp:expiry:signature`. `now` is `Date.now()` and
`expiryMs` is `SESSION_EXPIRY_MS`. -/
def generateSessionToken (hmac : JStr → JStr → JStr) (envSecret : Option JStr)
    (fresh : JStr) (now expiryMs : Int) : JStr :=
  let secret := getSessionSecret envSecret fresh
  let timestamp := now
  let expiry := timestamp + expiryMs
  let payload := intToChars timestamp ++ ':' :: intToChars expiry
  let signature := hmac secret payload
  jsBtoa (payload ++ ':' :: signature)

/-! ### Token verification (`server.js` lines 836-889, auth-status function) -/

/-- `crypto.timingSafeEqual(a, b)` on buffers: throws (`.error`) when the
lengths differ, otherwise decides byte equality. -/
def timingSafeEqual (a b : List Nat) : Except Unit Bool :=
  if a.length = b.length then Except.ok (a == b) else Except.error ()

/-- Result object of `verifySessionToken`. -/
structure VerifyResult where
  valid : Bool
  error : Option JStr := none
  expiresAt : Option Int := none
  remainingTime : Option Int := none
deriving DecidableEq, Repr

def errNoToken : JStr := "No token provided".data
def errInvalidFormat : JStr := "Invalid token format".data
def errTokenExpired : JStr := "Token expired".data
def errInvalidSignature : JStr := "Invalid signature".data
def errVerificationFailed : JStr := "Verification failed".data

/-- `verifySessionToken(token)`: base64-decode, split on `:` into
`timestamp:expiry:signature`, reject non-numeric or past expiry, then compare
the supplied signature against the recomputed HMAC with `timingSafeEqual`,
whose length-mismatch exception lands in the surrounding `catch`. The token
argument is `Option`al (`none` = absent), and a present empty string is also
rejected (`!token`). `fresh` is the random draw of this call's
`getSessionSecret`. -/
def verifySessionToken (hmac : JStr → JStr → JStr) (envSecret : Option JStr)
    (fresh : JStr) (now : Int) (token : Option JStr) : VerifyResult :=
  match token with
  | none => { valid := false, error := some errNoToken }
  | some t =>
    if t = [] then { valid := false, error := some errNoToken }
    else
      let decoded := jsAtob t
      let parts := jsSplit ':' decoded
      if parts.length ≠ 3 then { valid := false, error := some errInvalidFormat }
      else
        let timestamp := parts.getD 0 []
        let expiry := parts.getD 1 []
        let providedSignature := parts.getD 2 []
        match jsParseInt expiry with
        | none => { valid := false, error := some errTokenExpired }
        | some expiryTime =>
          if now > expiryTime then { valid := false, error := some errTokenExpired }
          else
            let secret := getSessionSecret envSecret fresh
            let payload := timestamp ++ ':' :: expiry
            let expectedSignature := hmac secret payload
            match timingSafeEqual (strToBytes providedSignature)
                (strToBytes expectedSignature) with
            | Except.error _ =>
              { valid := false, error := some errVerificationFailed }
            | Except.ok false =>
              { valid := false, error := some errInvalidSignature }
            | Except.ok true =>
              { valid := true, expiresAt := some expiryTime,
                remainingTime := some (expiryTime - now) }

/-! ### Constant-time credential comparison
(`api/auth/verify.js` lines 58-74 = `server.js` lines 894-910.) -/

/-- A JavaScript value as `constantTimeCompare` distinguishes them: a string
(represented by the bytes `Buffer.byteLength` / `buf.write` see) or any
non-string value. -/
inductive JSVal where
  | str (bytes : List Nat)
  | nonString
deriving DecidableEq

/-- `constantTimeCompare(a, b)`: `false` for non-strings; otherwise both
strings are written into zero-filled buffers of the larger byte length,
compared with `timingSafeEqual` (which cannot throw here, the lengths being
equal by construction), and the original byte lengths must also match. -/
def constantTimeCompare : JSVal → JSVal → Bool
  | JSVal.str a, JSVal.str b =>
    let len := max a.length b.length
    let bufA := a ++ List.replicate (len - a.length) 0
    let bufB := b ++ List.replicate (len - b.length) 0
    (match timingSafeEqual bufA bufB with
     | Except.ok r => r
     | Except.error _ => false) && a.length == b.length
  | _, _ => false

/-! ### Fixed-window rate limiting
(`checkRateLimit`, `api/auth/verify.js` lines 84-115; `checkAuthRateLimit` in
`server.js` lines 934-965 is textually identical up to renaming.) -/

def RATE_LIMIT_WINDOW_MS : Int := 15 * 60 * 1000
def RATE_LIMIT_MAX_ATTEMPTS : Nat := 5

/-- An entry of `rateLimitStore`. -/
structure RateRecord where
  count : Nat
  resetAt : Int
deriving DecidableEq, Repr

/-- Return object of `checkRateLimit` (`resetIn` only present when blocked). -/
structure RateLimitResult where
  allowed : Bool
  remainingAttempts : Nat
  resetIn : Option Int := none
deriving DecidableEq, Repr

/-- The `Map` keyed by client identity. -/
def RateLimitStore : Type := JStr → Option RateRecord

/-- `rateLimitStore.set(ip, r)`. -/
def rlSet (store : RateLimitStore) (ip : JStr) (r : RateRecord) : RateLimitStore :=
  fun k => if k = ip then some r else store k

/-- `Math.ceil(x / 1000 / 60)` for integral `x`, as the exact rational ceiling
of `x / 60000` (the double-precision divisions are exact at every magnitude a
15-minute window can produce). -/
def ceilMinutes (x : Int) : Int := -(-x / 60000)

/-- `checkRateLimit(ip)`: permit-and-increment within the window, reset the
record once `now` is strictly past `resetAt`, and reject without mutation once
`count` has reached the maximum. Returns the result object and the store after
the call. -/
def checkRateLimit (store : RateLimitStore) (ip : JStr) (now : Int) :
    RateLimitResult × RateLimitStore :=
  match store ip with
  | none =>
    ({ allowed := true, remainingAttempts := RATE_LIMIT_MAX_ATTEMPTS - 1 },
     rlSet store ip { count := 1, resetAt := now + RATE_LIMIT_WINDOW_MS })
  | some record =>
    if now > record.resetAt then
      ({ allowed := true, remainingAttempts := RATE_LIMIT_MAX_ATTEMPTS - 1 },
       rlSet store ip { count := 1, resetAt := now + RATE_LIMIT_WINDOW_MS })
    else if record.count ≥ RATE_LIMIT_MAX_ATTEMPTS then
      ({ allowed := false, remainingAttempts := 0,
         resetIn := some (ceilMinutes (record.resetAt - now)) },
       store)
    else
      ({ allowed := true,
         remainingAttempts := RATE_LIMIT_MAX_ATTEMPTS - (record.count + 1) },
       rlSet store ip { count := record.count + 1, resetAt := record.resetAt })

/-! ### The two verify-password endpoints
(`handler` in `api/auth/verify.js` lines 120-209, and the Express route
`app.post('/api/auth/verify')` in `server.js` lines 971-1054.) -/

/-- `'; '.join` of cookie attribute strings. -/
def joinSep (sep : JStr) : List JStr → JStr
  | [] => []
  | [x] => x
  | x :: y :: xs => x ++ sep ++ joinSep sep (y :: xs)

/-- The `password` field of the request body: absent, a string, or a value of
some other type. -/
inductive ReqPassword where
  | missing
  | str (p : JStr)
  | nonString
deriving DecidableEq

/-- Environment configuration both endpoints read. -/
structure AuthEnv where
  masterPassword : Option JStr
  sessionSecret : Option JStr
  sessionExpiryMs : Int
  isProduction : Bool

/-- The response JSON fields either endpoint can produce, together with the
HTTP status and the `Set-Cookie` header. -/
structure AuthResponse where
  status : Nat
  success : Bool
  error : Option JStr := none
  message : Option JStr := none
  remainingAttempts : Option Nat := none
  retryAfter : Option Int := none
  expiresIn : Option Int := none
  setCookie : Option JStr := none
deriving DecidableEq, Repr

/-- The 429 response shared verbatim by both endpoints. -/
def tooManyResponse (resetIn : Int) : AuthResponse :=
  { status := 429, success := false, error := some "Too many attempts".data,
    message := some ("Please try again in ".data ++ intToChars resetIn ++
      " minutes".data),
    retryAfter := some (resetIn * 60) }

/-- The session cookie string: `ngauge_session=<token>; Max-Age=...; Path=/;
HttpOnly; SameSite=Strict` plus, when `secure`, `; Secure`. (`SESSION_EXPIRY_MS
/ 1000` is exact for every whole number of days.) -/
def sessionCookie (token : JStr) (expiryMs : Int) (secure : Bool) : JStr :=
  joinSep "; ".data
    (["ngauge_session=".data ++ token,
      "Max-Age=".data ++ intToChars (expiryMs / 1000),
      "Path=/".data, "HttpOnly".data, "SameSite=Strict".data] ++
     if secure then ["Secure".data] else [])

/-- The serverless `/api/auth/verify` handler (`api/auth/verify.js`), for a
POST request: rate limit first, then require a nonempty string password, then
the configured master password, then the constant-time comparison; on success
issue a token and set the cookie (with `Secure` exactly in production). -/
def serverlessVerifyHandler (hmac : JStr → JStr → JStr) (env : AuthEnv)
    (fresh : JStr) (now : Int) (pw : ReqPassword) (ip : JStr)
    (store : RateLimitStore) : AuthResponse × RateLimitStore :=
  let rl := checkRateLimit store ip now
  if rl.1.allowed = false then
    (tooManyResponse (rl.1.resetIn.getD 0), rl.2)
  else
    match pw with
    | ReqPassword.str p =>
      if p = [] then
        ({ status := 400, success := false,
           error := some "Password is required".data }, rl.2)
      else
        match env.masterPassword with
        | none =>
          ({ status := 500, success := false,
             error := some "Authentication service not configured".data }, rl.2)
        | some mp =>
          if constantTimeCompare (JSVal.str (strToBytes p))
              (JSVal.str (strToBytes mp)) then
            let token := generateSessionToken hmac env.sessionSecret fresh now
              env.sessionExpiryMs
            ({ status := 200, success := true,
               message := some "Authentication successful".data,
               expiresIn := some env.sessionExpiryMs,
               setCookie := some (sessionCookie token env.sessionExpiryMs
                 env.isProduction) }, rl.2)
          else
            ({ status := 401, success := false,
               error := some "Invalid password".data,
               remainingAttempts := some rl.1.remainingAttempts }, rl.2)
    | _ =>
      ({ status := 400, success := false,
         error := some "Password is required".data }, rl.2)

/-- The Express `POST /api/auth/verify` route (`server.js`): express-validator
rejects a missing/empty/non-string password with a 400 `Validation failed`
before the rate limiter runs; afterwards the logic matches the serverless
handler except that the cookie never carries `Secure`. -/
def expressVerifyHandler (hmac : JStr → JStr → JStr) (env : AuthEnv)
    (fresh : JStr) (now : Int) (pw : ReqPassword) (ip : JStr)
    (store : RateLimitStore) : AuthResponse × RateLimitStore :=
  match pw with
  | ReqPassword.str p =>
    if p = [] then
      ({ status := 400, success := false,
         error := some "Validation failed".data }, store)
    else
      let rl := checkRateLimit store ip now
      if rl.1.allowed = false then
        (tooManyResponse (rl.1.resetIn.getD 0), rl.2)
      else
        match env.masterPassword with
        | none =>
          ({ status := 500, success := false,
             error := some "Authentication service not configured".data }, rl.2)
        | some mp =>
          if constantTimeCompare (JSVal.str (strToBytes p))
              (JSVal.str (strToBytes mp)) then
            let token := generateSessionToken hmac env.sessionSecret fresh now
              env.sessionExpiryMs
            ({ status := 200, success := true,
               message := some "Authentication successful".data,
               expiresIn := some env.sessionExpiryMs,
               setCookie := some (sessionCookie token env.sessionExpiryMs
                 false) }, rl.2)
          else
            ({ status := 401, success := false,
               error := some "Invalid password".data,
               remainingAttempts := some rl.1.remainingAttempts }, rl.2)
  | _ =>
    ({ status := 400, success := false,
       error := some "Validation failed".data }, store)

/-! ### Concrete stand-ins for witnesses and counterexamples -/

/-- A concrete, executable stand-in for the HMAC-SHA256 hex digest, used only
to instantiate the abstract `hmac` parameter in closed witness statements: like
the real digest it has byte length 64 and contains no colon, and it
distinguishes the concrete secrets/payloads the witnesses use. -/
def demoHmac (secret payload : JStr) : JStr :=
  (((secret ++ '|' :: payload).map fun c => if c = ':' then 'x' else c) ++
    List.replicate 64 'f').take 64

/-- Replace the byte at position `i` (the encoded token is ASCII, so bytes and
characters coincide). -/
def substAt (s : JStr) (i : Nat) (c : Char) : JStr :=
  s.take i ++ c :: s.drop (i + 1)

/-! ### Lemmas: UTF-8 on ASCII strings -/

theorem utf8EncodeChar_ascii {c : Char} (h : c.toNat < 128) :
    utf8EncodeChar c = [c.toNat] := by
  simp [utf8EncodeChar, h]

theorem strToBytes_ascii {s : JStr} (h : ∀ c ∈ s, c.toNat < 128) :
    strToBytes s = s.map Char.toNat := by
  induction s with
  | nil => rfl
  | cons c cs ih =>
    have hc : c.toNat < 128 := h c (List.mem_cons_self c cs)
    have hcs : ∀ x ∈ cs, x.toNat < 128 := fun x hx => h x (List.mem_cons_of_mem c hx)
    simp [strToBytes, utf8EncodeChar_ascii hc] at ih ⊢
    exact ih hcs

theorem utf8DecodeAux_ascii :
    ∀ (fuel : Nat) (s : JStr), s.length < fuel → (∀ c ∈ s, c.toNat < 128) →
      utf8DecodeAux fuel (s.map Char.toNat) = s := by
  intro fuel
  induction fuel with
  | zero => intro s hs; omega
  | succ fuel ih =>
    intro s hs hascii
    cases s with
    | nil => rfl
    | cons c cs =>
      have hc : c.toNat < 128 := hascii c (List.mem_cons_self c cs)
      have hcs : ∀ x ∈ cs, x.toNat < 128 :=
        fun x hx => hascii x (List.mem_cons_of_mem c hx)
      have hlen : cs.length < fuel := by
        simp only [List.length_cons] at hs; omega
      simp only [List.map_cons, utf8DecodeAux, hc, if_pos, ih cs hlen hcs]
      rw [Char.ofNat_toNat]

theorem utf8Decode_ascii {s : JStr} (h : ∀ c ∈ s, c.toNat < 128) :
    utf8Decode (s.map Char.toNat) = s := by
  rw [utf8Decode]
  exact utf8DecodeAux_ascii _ s (by simp) h

/-! ### Lemmas: base64 round trip -/

theorem b64Idx_b64Char : ∀ k < 64, b64Idx (b64Char k) = some k := by decide

theorem b64_roundtrip :
    ∀ bs : List Nat, (∀ b ∈ bs, b < 256) →
      b64DecodeBytes (b64EncodeBytes bs) = bs
  | [], _ => rfl
  | [b0], h => by
    have hb0 : b0 < 256 := h b0 (by simp)
    have e0 := b64Idx_b64Char (b0 / 4) (by omega)
    have e1 := b64Idx_b64Char (b0 % 4 * 16) (by omega)
    simp only [b64EncodeBytes, b64DecodeBytes, List.filterMap_cons, e0, e1,
      show b64Idx '=' = none from rfl, List.filterMap_nil, b64SexToBytes,
      List.cons.injEq, and_true]
    omega
  | [b0, b1], h => by
    have hb0 : b0 < 256 := h b0 (by simp)
    have hb1 : b1 < 256 := h b1 (by simp)
    have e0 := b64Idx_b64Char (b0 / 4) (by omega)
    have e1 := b64Idx_b64Char (b0 % 4 * 16 + b1 / 16) (by omega)
    have e2 := b64Idx_b64Char (b1 % 16 * 4) (by omega)
    simp only [b64EncodeBytes, b64DecodeBytes, List.filterMap_cons, e0, e1, e2,
      show b64Idx '=' = none from rfl, List.filterMap_nil, b64SexToBytes,
      List.cons.injEq, and_true]
    refine ⟨by omega, by omega⟩
  | b0 :: b1 :: b2 :: rest, h => by
    have hb0 : b0 < 256 := h b0 (by simp)
    have hb1 : b1 < 256 := h b1 (by simp)
    have hb2 : b2 < 256 := h b2 (by simp)
    have hrest : ∀ b ∈ rest, b < 256 := fun b hb => h b (by simp [hb])
    have e0 := b64Idx_b64Char (b0 / 4) (by omega)
    have e1 := b64Idx_b64Char (b0 % 4 * 16 + b1 / 16) (by omega)
    have e2 := b64Idx_b64Char (b1 % 16 * 4 + b2 / 64) (by omega)
    have e3 := b64Idx_b64Char (b2 % 64) (by omega)
    have ih := b64_roundtrip rest hrest
    simp only [b64DecodeBytes] at ih
    simp only [b64EncodeBytes, b64DecodeBytes, List.filterMap_cons, e0, e1, e2,
      e3, b64SexToBytes, ih, List.cons.injEq, and_true]
    refine ⟨by omega, by omega, by omega⟩

theorem jsAtob_jsBtoa {s : JStr} (h : ∀ c ∈ s, c.toNat < 128) :
    jsAtob (jsBtoa s) = s := by
  have hb : strToBytes s = s.map Char.toNat := strToBytes_ascii h
  have hlt : ∀ b ∈ strToBytes s, b < 256 := by
    rw [hb]; intro b hbm
    obtain ⟨c, hc, rfl⟩ := List.mem_map.mp hbm
    have := h c hc; omega
  rw [jsAtob, jsBtoa, b64_roundtrip _ hlt, hb, utf8Decode_ascii h]

theorem b64EncodeBytes_ne_nil {bs : List Nat} (h : bs ≠ []) :
    b64EncodeBytes bs ≠ [] := by
  match bs with
  | [b0] => simp [b64EncodeBytes]
  | [b0, b1] => simp [b64EncodeBytes]
  | b0 :: b1 :: b2 :: rest => simp [b64EncodeBytes]

theorem strToBytes_ne_nil {s : JStr} (h : s ≠ []) : strToBytes s ≠ [] := by
  match s with
  | c :: cs =>
    simp only [strToBytes, List.map_cons, List.flatten_cons]
    have : utf8EncodeChar c ≠ [] := by
      rw [utf8EncodeChar]
      split
      · simp
      split
      · simp
      split <;> simp
    intro hcon
    exact this (List.append_eq_nil.mp hcon).1

theorem jsBtoa_ne_nil {s : JStr} (h : s ≠ []) : jsBtoa s ≠ [] :=
  b64EncodeBytes_ne_nil (strToBytes_ne_nil h)

/-! ### Lemmas: split -/

theorem jsSplit_ne_nil (sep : Char) (l : List Char) : jsSplit sep l ≠ [] := by
  cases l with
  | nil => simp [jsSplit]
  | cons c cs =>
    rw [jsSplit]
    cases h : jsSplit sep cs with
    | nil => simp
    | cons r rs => by_cases hcs : c = sep <;> simp [hcs]

theorem jsSplit_not_mem {sep : Char} {a : List Char} (h : sep ∉ a) :
    jsSplit sep a = [a] := by
  induction a with
  | nil => rfl
  | cons c cs ih =>
    have hc : c ≠ sep := fun hcon => h (hcon ▸ List.mem_cons_self c cs)
    have hcs : sep ∉ cs := fun hcon => h (List.mem_cons_of_mem c hcon)
    rw [jsSplit, ih hcs]
    simp [hc]

theorem jsSplit_append {sep : Char} {a : List Char} (rest : List Char)
    (h : sep ∉ a) :
    jsSplit sep (a ++ sep :: rest) = a :: jsSplit sep rest := by
  induction a with
  | nil =>
    simp only [List.nil_append, jsSplit]
    cases hr : jsSplit sep rest with
    | nil => exact absurd hr (jsSplit_ne_nil sep rest)
    | cons r rs => simp
  | cons c cs ih =>
    have hc : c ≠ sep := fun hcon => h (hcon ▸ List.mem_cons_self c cs)
    have hcs : sep ∉ cs := fun hcon => h (List.mem_cons_of_mem c hcon)
    simp only [List.cons_append]
    rw [jsSplit, ih hcs]
    simp [hc]

/-! ### Lemmas: decimal printing and `parseInt` -/

theorem digitChar_props : ∀ m < 10, (digitChar m).isDigit = true ∧
    (digitChar m).toNat = 48 + m ∧ (digitChar m).toNat < 128 ∧
    digitChar m ≠ ':' ∧ isJsSpace (digitChar m) = false ∧
    digitChar m ≠ '-' ∧ digitChar m ≠ '+' := by decide

theorem natToCharsAux_eq_natRep :
    ∀ (fuel n : Nat) (acc : List Char), n < fuel →
      natToCharsAux fuel n acc = natRep n ++ acc := by
  intro fuel
  induction fuel with
  | zero => intro n acc h; omega
  | succ fuel ih =>
    intro n acc h
    rw [natToCharsAux, natRep]
    by_cases h10 : n < 10
    · simp [h10]
    · have hdiv : n / 10 < fuel := by omega
      simp only [h10, if_neg, if_false]
      rw [ih (n / 10) _ hdiv, List.append_assoc, List.singleton_append]

theorem natToChars_eq_natRep (n : Nat) : natToChars n = natRep n := by
  rw [natToChars, natToCharsAux_eq_natRep (n + 1) n [] (by omega),
    List.append_nil]

theorem natRep_props (n : Nat) : ∀ c ∈ natRep n, c.isDigit = true ∧
    c.toNat < 128 ∧ c ≠ ':' ∧ isJsSpace c = false ∧ c ≠ '-' ∧ c ≠ '+' := by
  induction n using Nat.strong_induction_on with
  | _ n ih =>
    intro c hc
    rw [natRep] at hc
    by_cases h10 : n < 10
    · rw [if_pos h10] at hc
      simp only [List.mem_singleton] at hc
      subst hc
      have := digitChar_props n h10
      exact ⟨this.1, this.2.2.1, this.2.2.2.1, this.2.2.2.2.1, this.2.2.2.2.2⟩
    · rw [if_neg h10] at hc
      rcases List.mem_append.mp hc with hl | hr
      · exact ih (n / 10) (Nat.div_lt_self (by omega) (by omega)) c hl
      · simp only [List.mem_singleton] at hr
        subst hr
        have := digitChar_props (n % 10) (Nat.mod_lt n (by omega))
        exact ⟨this.1, this.2.2.1, this.2.2.2.1, this.2.2.2.2.1, this.2.2.2.2.2⟩

theorem natRep_ne_nil (n : Nat) : natRep n ≠ [] := by
  rw [natRep]
  split <;> simp

theorem digitsToNat_natRep (n : Nat) : digitsToNat (natRep n) = n := by
  induction n using Nat.strong_induction_on with
  | _ n ih =>
    rw [natRep]
    by_cases h10 : n < 10
    · rw [if_pos h10]
      have := (digitChar_props n h10).2.1
      simp [digitsToNat, this]
    · rw [if_neg h10]
      have hd := (digitChar_props (n % 10) (Nat.mod_lt n (by omega))).2.1
      have ihd := ih (n / 10) (Nat.div_lt_self (by omega) (by omega))
      simp only [digitsToNat, List.foldl_append, List.foldl_cons, List.foldl_nil]
      simp only [digitsToNat] at ihd
      rw [ihd, hd]
      omega

theorem takeWhile_all {p : Char → Bool} :
    ∀ {l : List Char}, (∀ c ∈ l, p c = true) → l.takeWhile p = l := by
  intro l
  induction l with
  | nil => intro _; rfl
  | cons c cs ih =>
    intro h
    rw [List.takeWhile_cons, h c (List.mem_cons_self c cs)]
    simp [ih fun x hx => h x (List.mem_cons_of_mem c hx)]

theorem jsParseInt_natRep (n : Nat) : jsParseInt (natRep n) = some (n : Int) := by
  obtain ⟨d, ds, hds⟩ : ∃ d ds, natRep n = d :: ds := by
    cases h : natRep n with
    | nil => exact absurd h (natRep_ne_nil n)
    | cons d ds => exact ⟨d, ds, rfl⟩
  have hprops := natRep_props n
  have hd := hprops d (hds ▸ List.mem_cons_self d ds)
  have hall : ∀ c ∈ natRep n, Char.isDigit c = true := fun c hc => (hprops c hc).1
  have hdrop : List.dropWhile isJsSpace (d :: ds) = d :: ds := by
    rw [List.dropWhile_cons, hd.2.2.2.1]
    simp
  rw [jsParseInt, hds, hdrop]
  simp only [if_neg hd.2.2.2.2.1, if_neg hd.2.2.2.2.2, ← hds, jsParseIntCore,
    takeWhile_all hall]
  simp [natRep_ne_nil n, digitsToNat_natRep]

theorem intToChars_nonneg {i : Int} (h : 0 ≤ i) :
    intToChars i = natRep i.toNat := by
  rw [intToChars, if_neg (by omega), natToChars_eq_natRep]

theorem jsParseInt_intToChars {i : Int} (h : 0 ≤ i) :
    jsParseInt (intToChars i) = some i := by
  rw [intToChars_nonneg h, jsParseInt_natRep, Int.toNat_of_nonneg h]

theorem intToChars_props {i : Int} (h : 0 ≤ i) :
    ∀ c ∈ intToChars i, c.toNat < 128 ∧ c ≠ ':' := by
  rw [intToChars_nonneg h]
  intro c hc
  have := natRep_props i.toNat c hc
  exact ⟨this.2.1, this.2.2.1⟩

theorem intToChars_ne_nil (i : Int) : intToChars i ≠ [] := by
  rw [intToChars]
  split
  · simp
  · exact natToChars_eq_natRep _ ▸ natRep_ne_nil _

/-! ### Lemmas: small facts about the model's primitives -/

theorem timingSafeEqual_self (a : List Nat) : timingSafeEqual a a = Except.ok true := by
  simp [timingSafeEqual]

theorem timingSafeEqual_eq_of_ok_true {a b : List Nat}
    (h : timingSafeEqual a b = Except.ok true) : a = b := by
  rw [timingSafeEqual] at h
  split at h
  · simpa using h
  · simp at h

theorem getSessionSecret_config {s : JStr} (h : s ≠ []) (fresh : JStr) :
    getSessionSecret (some s) fresh = s := by
  simp [getSessionSecret, h]

/-! ### Lemmas: the four branches of `checkRateLimit` -/

theorem checkRateLimit_fresh {store : RateLimitStore} {ip : JStr} {now : Int}
    (h : store ip = none) :
    checkRateLimit store ip now =
      ({ allowed := true, remainingAttempts := 4 },
       rlSet store ip { count := 1, resetAt := now + RATE_LIMIT_WINDOW_MS }) := by
  simp only [checkRateLimit, h]
  rfl

theorem checkRateLimit_reset {store : RateLimitStore} {ip : JStr} {now : Int}
    {rec : RateRecord} (h : store ip = some rec) (hw : now > rec.resetAt) :
    checkRateLimit store ip now =
      ({ allowed := true, remainingAttempts := 4 },
       rlSet store ip { count := 1, resetAt := now + RATE_LIMIT_WINDOW_MS }) := by
  simp only [checkRateLimit, h, if_pos hw]
  rfl

theorem checkRateLimit_blocked {store : RateLimitStore} {ip : JStr} {now : Int}
    {rec : RateRecord} (h : store ip = some rec) (hw : ¬now > rec.resetAt)
    (hc : rec.count ≥ RATE_LIMIT_MAX_ATTEMPTS) :
    checkRateLimit store ip now =
      ({ allowed := false, remainingAttempts := 0,
         resetIn := some (ceilMinutes (rec.resetAt - now)) }, store) := by
  simp only [checkRateLimit, h, if_neg hw, if_pos hc]

theorem checkRateLimit_increment {store : RateLimitStore} {ip : JStr} {now : Int}
    {rec : RateRecord} (h : store ip = some rec) (hw : ¬now > rec.resetAt)
    (hc : ¬rec.count ≥ RATE_LIMIT_MAX_ATTEMPTS) :
    checkRateLimit store ip now =
      ({ allowed := true,
         remainingAttempts := RATE_LIMIT_MAX_ATTEMPTS - (rec.count + 1) },
       rlSet store ip { count := rec.count + 1, resetAt := rec.resetAt }) := by
  simp only [checkRateLimit, h, if_neg hw, if_neg hc]

theorem rlSet_get (store : RateLimitStore) (ip : JStr) (r : RateRecord) :
    rlSet store ip r ip = some r := by
  simp [rlSet]

/-! ### Claims about the rate limiter -/

/-- C5: fixed-window rate limiting with N = 5 and W = 15 minutes. Starting from
no record, six checks inside one window are allowed with
`remainingAttempts` 4, 3, 2, 1, 0 and the sixth is rejected; and any check
strictly after a record's deadline is allowed again with the record reset to
`count = 1` and deadline `now + W`. -/
theorem checkRateLimit_fixed_window (store : RateLimitStore) (ip : JStr)
    (t1 t2 t3 t4 t5 t6 : Int) (h0 : store ip = none)
    (h2 : t2 ≤ t1 + RATE_LIMIT_WINDOW_MS) (h3 : t3 ≤ t1 + RATE_LIMIT_WINDOW_MS)
    (h4 : t4 ≤ t1 + RATE_LIMIT_WINDOW_MS) (h5 : t5 ≤ t1 + RATE_LIMIT_WINDOW_MS)
    (h6 : t6 ≤ t1 + RATE_LIMIT_WINDOW_MS) :
    ((checkRateLimit store ip t1).1 = { allowed := true, remainingAttempts := 4 } ∧
     (checkRateLimit (checkRateLimit store ip t1).2 ip t2).1 =
       { allowed := true, remainingAttempts := 3 } ∧
     (checkRateLimit (checkRateLimit (checkRateLimit store ip t1).2 ip t2).2
        ip t3).1 = { allowed := true, remainingAttempts := 2 } ∧
     (checkRateLimit (checkRateLimit (checkRateLimit
        (checkRateLimit store ip t1).2 ip t2).2 ip t3).2 ip t4).1 =
       { allowed := true, remainingAttempts := 1 } ∧
     (checkRateLimit (checkRateLimit (checkRateLimit (checkRateLimit
        (checkRateLimit store ip t1).2 ip t2).2 ip t3).2 ip t4).2 ip t5).1 =
       { allowed := true, remainingAttempts := 0 } ∧
     (checkRateLimit (checkRateLimit (checkRateLimit (checkRateLimit
        (checkRateLimit (checkRateLimit store ip t1).2 ip t2).2 ip t3).2
        ip t4).2 ip t5).2 ip t6).1.allowed = false) ∧
    (∀ (st : RateLimitStore) (ident : JStr) (now : Int) (rec : RateRecord),
      st ident = some rec → now > rec.resetAt →
      checkRateLimit st ident now =
        ({ allowed := true, remainingAttempts := 4 },
         rlSet st ident { count := 1, resetAt := now + RATE_LIMIT_WINDOW_MS })) := by
  have s1 : checkRateLimit store ip t1 =
      ({ allowed := true, remainingAttempts := 4 },
       rlSet store ip { count := 1, resetAt := t1 + RATE_LIMIT_WINDOW_MS }) :=
    checkRateLimit_fresh h0
  have g1 : (checkRateLimit store ip t1).2 ip =
      some { count := 1, resetAt := t1 + RATE_LIMIT_WINDOW_MS } := by
    rw [s1]; exact rlSet_get ..
  have s2 : checkRateLimit (checkRateLimit store ip t1).2 ip t2 =
      ({ allowed := true, remainingAttempts := 3 },
       rlSet (checkRateLimit store ip t1).2 ip
         { count := 2, resetAt := t1 + RATE_LIMIT_WINDOW_MS }) := by
    rw [checkRateLimit_increment g1 (by simp only []; omega)
      (by simp [RATE_LIMIT_MAX_ATTEMPTS])]
    rfl
  have g2 : (checkRateLimit (checkRateLimit store ip t1).2 ip t2).2 ip =
      some { count := 2, resetAt := t1 + RATE_LIMIT_WINDOW_MS } := by
    rw [s2]; exact rlSet_get ..
  have s3 : checkRateLimit (checkRateLimit (checkRateLimit store ip t1).2
      ip t2).2 ip t3 =
      ({ allowed := true, remainingAttempts := 2 },
       rlSet (checkRateLimit (checkRateLimit store ip t1).2 ip t2).2 ip
         { count := 3, resetAt := t1 + RATE_LIMIT_WINDOW_MS }) := by
    rw [checkRateLimit_increment g2 (by simp only []; omega)
      (by simp [RATE_LIMIT_MAX_ATTEMPTS])]
    rfl
  have g3 : (checkRateLimit (checkRateLimit (checkRateLimit store ip t1).2
      ip t2).2 ip t3).2 ip =
      some { count := 3, resetAt := t1 + RATE_LIMIT_WINDOW_MS } := by
    rw [s3]; exact rlSet_get ..
  have s4 : checkRateLimit (checkRateLimit (checkRateLimit (checkRateLimit
      store ip t1).2 ip t2).2 ip t3).2 ip t4 =
      ({ allowed := true, remainingAttempts := 1 },
       rlSet (checkRateLimit (checkRateLimit (checkRateLimit store ip t1).2
         ip t2).2 ip t3).2 ip
         { count := 4, resetAt := t1 + RATE_LIMIT_WINDOW_MS }) := by
    rw [checkRateLimit_increment g3 (by simp only []; omega)
      (by simp [RATE_LIMIT_MAX_ATTEMPTS])]
    rfl
  have g4 : (checkRateLimit (checkRateLimit (checkRateLimit (checkRateLimit
      store ip t1).2 ip t2).2 ip t3).2 ip t4).2 ip =
      some { count := 4, resetAt := t1 + RATE_LIMIT_WINDOW_MS } := by
    rw [s4]; exact rlSet_get ..
  have s5 : checkRateLimit (checkRateLimit (checkRateLimit (checkRateLimit
      (checkRateLimit store ip t1).2 ip t2).2 ip t3).2 ip t4).2 ip t5 =
      ({ allowed := true, remainingAttempts := 0 },
       rlSet (checkRateLimit (checkRateLimit (checkRateLimit (checkRateLimit
         store ip t1).2 ip t2).2 ip t3).2 ip t4).2 ip
         { count := 5, resetAt := t1 + RATE_LIMIT_WINDOW_MS }) := by
    rw [checkRateLimit_increment g4 (by simp only []; omega)
      (by simp [RATE_LIMIT_MAX_ATTEMPTS])]
    rfl
  have g5 : (checkRateLimit (checkRateLimit (checkRateLimit (checkRateLimit
      (checkRateLimit store ip t1).2 ip t2).2 ip t3).2 ip t4).2 ip t5).2 ip =
      some { count := 5, resetAt := t1 + RATE_LIMIT_WINDOW_MS } := by
    rw [s5]; exact rlSet_get ..
  have s6 : (checkRateLimit (checkRateLimit (checkRateLimit (checkRateLimit
      (checkRateLimit (checkRateLimit store ip t1).2 ip t2).2 ip t3).2
      ip t4).2 ip t5).2 ip t6).1.allowed = false := by
    rw [checkRateLimit_blocked g5 (by simp only []; omega)
      (by simp [RATE_LIMIT_MAX_ATTEMPTS])]
  refine ⟨⟨?_, ?_, ?_, ?_, ?_, ?_⟩, ?_⟩
  · rw [s1]
  · rw [s2]
  · rw [s3]
  · rw [s4]
  · rw [s5]
  · exact s6
  · intro st ident now rec hrec hnow
    exact checkRateLimit_reset hrec hnow

/-- C7 counterexample: with a blocked record whose deadline is 120000 ms
(= 120 seconds) away, `checkRateLimit` reports `resetIn = 2` (minutes, rounded
up), not the 120 seconds the claim requires. -/
theorem checkRateLimit_resetIn_not_seconds :
    (checkRateLimit (fun _ => some { count := 5, resetAt := 120000 }) [] 0).1 =
      { allowed := false, remainingAttempts := 0, resetIn := some 2 } ∧
    (2 : Int) ≠ 120000 / 1000 := by
  exact ⟨by decide, by decide⟩

/-- C7 amended: on every rejection the reported `resetIn` is the time to the
record's window deadline expressed in whole minutes rounded up — the least `m`
with `deadline - now ≤ m * 60000` — not in seconds; the store is unchanged. -/
theorem checkRateLimit_resetIn_minutes (store : RateLimitStore) (ip : JStr)
    (now : Int) (rec : RateRecord) (h : store ip = some rec)
    (hw : now ≤ rec.resetAt) (hc : 5 ≤ rec.count) :
    ∃ m : Int,
      (checkRateLimit store ip now).1 =
        { allowed := false, remainingAttempts := 0, resetIn := some m } ∧
      rec.resetAt - now ≤ m * 60000 ∧ (m - 1) * 60000 < rec.resetAt - now ∧
      (checkRateLimit store ip now).2 = store := by
  refine ⟨ceilMinutes (rec.resetAt - now), ?_, ?_, ?_, ?_⟩
  · rw [checkRateLimit_blocked h (by omega) (by simpa [RATE_LIMIT_MAX_ATTEMPTS])]
  · rw [ceilMinutes]; omega
  · rw [ceilMinutes]; omega
  · rw [checkRateLimit_blocked h (by omega) (by simpa [RATE_LIMIT_MAX_ATTEMPTS])]

/-- C8: a rejected check mutates nothing — whenever `checkRateLimit` returns
`allowed = false`, the store after the call is the store before it (so the
rejected identity's `count` and `resetAt` are untouched). -/
theorem checkRateLimit_reject_no_mutation (store : RateLimitStore) (ip : JStr)
    (now : Int) (h : (checkRateLimit store ip now).1.allowed = false) :
    (checkRateLimit store ip now).2 = store := by
  cases hs : store ip with
  | none => rw [checkRateLimit_fresh hs] at h; simp at h
  | some rec =>
    by_cases h1 : now > rec.resetAt
    · rw [checkRateLimit_reset hs h1] at h; simp at h
    · by_cases h2 : rec.count ≥ RATE_LIMIT_MAX_ATTEMPTS
      · rw [checkRateLimit_blocked hs h1 h2]
      · rw [checkRateLimit_increment hs h1 h2] at h; simp at h

/-- Witness for C5: six attempts at time 0 from a fresh identity, the sixth is
rejected. -/
theorem checkRateLimit_fixed_window_witness :
    (checkRateLimit (checkRateLimit (checkRateLimit (checkRateLimit
      (checkRateLimit (checkRateLimit (fun _ => none) [] 0).2 [] 0).2 [] 0).2
      [] 0).2 [] 0).2 [] 0).1.allowed = false :=
  (checkRateLimit_fixed_window (fun _ => none) [] 0 0 0 0 0 0 rfl (by decide)
    (by decide) (by decide) (by decide) (by decide)).1.2.2.2.2.2

/-- Witness for amended C7: a blocked record 90000 ms from its deadline
reports a `resetIn` covering it in whole minutes. -/
theorem checkRateLimit_resetIn_minutes_witness :
    ∃ m : Int,
      (checkRateLimit (fun _ => some { count := 5, resetAt := 90000 }) [] 0).1 =
        { allowed := false, remainingAttempts := 0, resetIn := some m } ∧
      (90000 : Int) - 0 ≤ m * 60000 ∧ (m - 1) * 60000 < 90000 - 0 ∧
      (checkRateLimit (fun _ => some { count := 5, resetAt := 90000 }) [] 0).2 =
        (fun _ => some { count := 5, resetAt := 90000 }) :=
  checkRateLimit_resetIn_minutes (fun _ => some { count := 5, resetAt := 90000 })
    [] 0 { count := 5, resetAt := 90000 } rfl (by decide) (by decide)

/-- Witness for C8: a rejected check leaves the store untouched. -/
theorem checkRateLimit_reject_no_mutation_witness :
    (checkRateLimit (fun _ => some { count := 5, resetAt := 100 }) [] 0).2 =
      (fun _ => some { count := 5, resetAt := 100 }) :=
  checkRateLimit_reject_no_mutation _ _ _ (by decide)

/-! ### Claim about the constant-time credential comparison -/

/-- C4: `constantTimeCompare` decides exact equality of its two string
arguments and fails closed: it accepts a string against itself, rejects every
other string, and returns `false` whenever either argument is not a string. -/
theorem constantTimeCompare_decides_equality (S : List Nat) :
    constantTimeCompare (JSVal.str S) (JSVal.str S) = true ∧
    (∀ S2 : List Nat, S2 ≠ S →
      constantTimeCompare (JSVal.str S2) (JSVal.str S) = false) ∧
    (∀ v w : JSVal, v = JSVal.nonString ∨ w = JSVal.nonString →
      constantTimeCompare v w = false) := by
  refine ⟨?_, ?_, ?_⟩
  · simp [constantTimeCompare, timingSafeEqual]
  · intro S2 hne
    by_cases hlen : S2.length = S.length
    · have hpad : S2 ++ List.replicate (max S2.length S.length - S2.length) 0 = S2 := by
        rw [Nat.max_eq_right (le_of_eq hlen)]
        simp [hlen]
      have hpad2 : S ++ List.replicate (max S2.length S.length - S.length) 0 = S := by
        rw [Nat.max_eq_right (le_of_eq hlen)]
        simp
      simp only [constantTimeCompare, hpad, hpad2, timingSafeEqual]
      rw [if_pos hlen]
      simp [hne]
    · simp only [constantTimeCompare, Bool.and_eq_false_iff]
      right
      simp [hlen]
  · intro v w h
    rcases h with h | h
    · subst h; cases w <;> simp [constantTimeCompare]
    · subst h; cases v <;> simp [constantTimeCompare]

/-- Witness for C4 at concrete byte strings. -/
theorem constantTimeCompare_decides_equality_witness :
    constantTimeCompare (JSVal.str [104, 105]) (JSVal.str [104, 105]) = true ∧
    constantTimeCompare (JSVal.str [104]) (JSVal.str [104, 105]) = false ∧
    constantTimeCompare JSVal.nonString (JSVal.str [104, 105]) = false :=
  ⟨(constantTimeCompare_decides_equality [104, 105]).1,
   (constantTimeCompare_decides_equality [104, 105]).2.1 [104] (by decide),
   (constantTimeCompare_decides_equality [104, 105]).2.2 JSVal.nonString
     (JSVal.str [104, 105]) (Or.inl rfl)⟩

/-! ### Lemma: `verifySessionToken` after a successful three-way split -/

theorem verifySessionToken_of_parts {hmac : JStr → JStr → JStr}
    {envSecret : Option JStr} {fresh : JStr} {now : Int} {t ts ex sg : JStr}
    (hne : t ≠ []) (hsplit : jsSplit ':' (jsAtob t) = [ts, ex, sg]) :
    verifySessionToken hmac envSecret fresh now (some t) =
      match jsParseInt ex with
      | none => { valid := false, error := some errTokenExpired }
      | some expiryTime =>
        if now > expiryTime then { valid := false, error := some errTokenExpired }
        else
          match timingSafeEqual (strToBytes sg)
              (strToBytes (hmac (getSessionSecret envSecret fresh)
                (ts ++ ':' :: ex))) with
          | Except.error _ => { valid := false, error := some errVerificationFailed }
          | Except.ok false => { valid := false, error := some errInvalidSignature }
          | Except.ok true =>
            { valid := true, expiresAt := some expiryTime,
              remainingTime := some (expiryTime - now) } := by
  simp only [verifySessionToken, if_neg hne, hsplit, List.length_cons,
    List.length_nil, List.getD, List.getElem?_cons_zero, List.getElem?_cons_succ,
    Option.getD_some]
  norm_num

/-! ### Claims about token verification order and error branches -/

/-- C1 amended: `verifySessionToken` checks expiry before the signature — for
every token that decodes into exactly three fields with a numeric expiry in the
past, the result is `Token expired` no matter what the signature field holds
(so the `Invalid signature` outcome is never produced for an expired token,
contrary to the claim that signature validation comes first). -/
theorem verifySessionToken_expiry_before_signature
    (hmac : JStr → JStr → JStr) (envSecret : Option JStr) (fresh : JStr)
    (now : Int) (t ts ex sg : JStr) (e : Int)
    (hne : t ≠ []) (hsplit : jsSplit ':' (jsAtob t) = [ts, ex, sg])
    (hparse : jsParseInt ex = some e) (hexp : now > e) :
    verifySessionToken hmac envSecret fresh now (some t) =
      { valid := false, error := some errTokenExpired } ∧
    errTokenExpired ≠ errInvalidSignature := by
  refine ⟨?_, by decide⟩
  rw [verifySessionToken_of_parts hne hsplit, hparse]
  simp only [if_pos hexp]

/-- C1 counterexample: a three-field token whose signature does not match and
whose expiry has passed is reported `Token expired`, not `Invalid signature` —
the claim's promised outcome is refuted at this input. -/
theorem verifySessionToken_expired_tamper_counterexample :
    strToBytes "badsig".data ≠
      strToBytes (demoHmac "sec".data "100:200".data) ∧
    (300 : Int) > 200 ∧
    verifySessionToken demoHmac (some "sec".data) [] 300
        (some (jsBtoa "100:200:badsig".data)) =
      { valid := false, error := some errTokenExpired } ∧
    errTokenExpired ≠ errInvalidSignature := by decide

/-- Witness for amended C1 at a concrete expired, tampered token. -/
theorem verifySessionToken_expiry_before_signature_witness :
    verifySessionToken demoHmac (some "sec".data) [] 300
        (some (jsBtoa "100:200:badsig".data)) =
      { valid := false, error := some errTokenExpired } ∧
    errTokenExpired ≠ errInvalidSignature :=
  verifySessionToken_expiry_before_signature demoHmac (some "sec".data) [] 300
    (jsBtoa "100:200:badsig".data) "100".data "200".data "badsig".data 200
    (by decide) (by decide) (by decide) (by decide)

/-- C2 (code bug): `getSessionSecret` draws a fresh random secret on every call
when `SESSION_SECRET_KEY` is unset — two calls with distinct draws return
different values, and a token issued by `generateSessionToken` in that
configuration immediately fails verification with `Invalid signature`. -/
theorem getSessionSecret_fresh_each_call :
    getSessionSecret none "aa11".data ≠ getSessionSecret none "bb22".data ∧
    verifySessionToken demoHmac none "bb22".data 150
        (some (generateSessionToken demoHmac none "aa11".data 100 1000)) =
      { valid := false, error := some errInvalidSignature } := by decide

/-- C9: a three-field token with a numeric, unexpired expiry whose signature
field's byte length is not the digest's 64 makes `crypto.timingSafeEqual`
throw, so the catch branch reports `Verification failed` (not
`Invalid signature`). -/
theorem verifySessionToken_sig_length_mismatch
    (hmac : JStr → JStr → JStr) (envSecret : Option JStr) (fresh : JStr)
    (now : Int) (t ts ex sg : JStr) (e : Int)
    (hne : t ≠ []) (hsplit : jsSplit ':' (jsAtob t) = [ts, ex, sg])
    (hparse : jsParseInt ex = some e) (hexp : ¬now > e)
    (hlen : (strToBytes sg).length ≠ 64)
    (hdig : (strToBytes (hmac (getSessionSecret envSecret fresh)
      (ts ++ ':' :: ex))).length = 64) :
    verifySessionToken hmac envSecret fresh now (some t) =
      { valid := false, error := some errVerificationFailed } ∧
    errVerificationFailed ≠ errInvalidSignature := by
  refine ⟨?_, by decide⟩
  rw [verifySessionToken_of_parts hne hsplit, hparse]
  simp only [if_neg hexp]
  have hth : timingSafeEqual (strToBytes sg)
      (strToBytes (hmac (getSessionSecret envSecret fresh)
        (ts ++ ':' :: ex))) = Except.error () := by
    rw [timingSafeEqual, if_neg]
    omega
  rw [hth]

/-- Witness for C9: a 2-byte signature field on an unexpired token yields
`Verification failed`. -/
theorem verifySessionToken_sig_length_mismatch_witness :
    verifySessionToken demoHmac (some "sec".data) [] 150
        (some (jsBtoa "100:200:zz".data)) =
      { valid := false, error := some errVerificationFailed } ∧
    errVerificationFailed ≠ errInvalidSignature :=
  verifySessionToken_sig_length_mismatch demoHmac (some "sec".data) [] 150
    (jsBtoa "100:200:zz".data) "100".data "200".data "zz".data 200
    (by decide) (by decide) (by decide) (by decide) (by decide) (by decide)

/-! ### Lemma: decoding a freshly issued token -/

theorem generate_decodes {hmac : JStr → JStr → JStr} {s : JStr} (fresh : JStr)
    {t0 T : Int} (hs : s ≠ []) (h0 : 0 ≤ t0) (hT : 0 ≤ T)
    (hsig : ∀ c ∈ hmac s (intToChars t0 ++ ':' :: intToChars (t0 + T)),
      c.toNat < 128 ∧ c ≠ ':') :
    jsSplit ':' (jsAtob (generateSessionToken hmac (some s) fresh t0 T)) =
      [intToChars t0, intToChars (t0 + T),
       hmac s (intToChars t0 ++ ':' :: intToChars (t0 + T))] ∧
    generateSessionToken hmac (some s) fresh t0 T ≠ [] := by
  have hgen : generateSessionToken hmac (some s) fresh t0 T =
      jsBtoa ((intToChars t0 ++ ':' :: intToChars (t0 + T)) ++ ':' ::
        hmac s (intToChars t0 ++ ':' :: intToChars (t0 + T))) := by
    simp only [generateSessionToken, getSessionSecret_config hs fresh]
  have hA := intToChars_props h0
  have hB := intToChars_props (by omega : (0 : Int) ≤ t0 + T)
  have hascii : ∀ c ∈ (intToChars t0 ++ ':' :: intToChars (t0 + T)) ++ ':' ::
      hmac s (intToChars t0 ++ ':' :: intToChars (t0 + T)), c.toNat < 128 := by
    intro c hc
    rcases List.mem_append.mp hc with h1 | h2
    · rcases List.mem_append.mp h1 with ha | hb
      · exact (hA c ha).1
      · rcases List.mem_cons.mp hb with rfl | hb2
        · decide
        · exact (hB c hb2).1
    · rcases List.mem_cons.mp h2 with rfl | h3
      · decide
      · exact (hsig c h3).1
  have hdec : jsAtob (generateSessionToken hmac (some s) fresh t0 T) =
      (intToChars t0 ++ ':' :: intToChars (t0 + T)) ++ ':' ::
        hmac s (intToChars t0 ++ ':' :: intToChars (t0 + T)) := by
    rw [hgen, jsAtob_jsBtoa hascii]
  constructor
  · rw [hdec, List.append_assoc, List.cons_append,
      jsSplit_append _ (fun hcon => ((hA ':' hcon).2 rfl)),
      jsSplit_append _ (fun hcon => ((hB ':' hcon).2 rfl)),
      jsSplit_not_mem (fun hcon => ((hsig ':' hcon).2 rfl))]
  · rw [hgen]
    exact jsBtoa_ne_nil (by simp)

/-- C3: round trip under a fixed configured signing secret. A token issued at
`t0` with time-to-live `T` verifies at every `t0 ≤ t ≤ t0 + T - 1000 ms` as
valid with `expiresAt = t0 + T` and `remainingTime = expiresAt - t`, and at
every `t > t0 + T` fails with `Token expired`. (The abstract digest is assumed
colon-free ASCII, as the hex HMAC-SHA256 of the source is.) -/
theorem token_roundtrip (hmac : JStr → JStr → JStr) (s fresh1 fresh2 : JStr)
    (t0 T t tlate : Int) (hs : s ≠ []) (h0 : 0 ≤ t0) (hT : 0 ≤ T)
    (hsig : ∀ c ∈ hmac s (intToChars t0 ++ ':' :: intToChars (t0 + T)),
      c.toNat < 128 ∧ c ≠ ':')
    (hlo : t0 ≤ t) (hhi : t ≤ t0 + T - 1000) (hlate : tlate > t0 + T) :
    verifySessionToken hmac (some s) fresh2 t
        (some (generateSessionToken hmac (some s) fresh1 t0 T)) =
      { valid := true, expiresAt := some (t0 + T),
        remainingTime := some (t0 + T - t) } ∧
    verifySessionToken hmac (some s) fresh2 tlate
        (some (generateSessionToken hmac (some s) fresh1 t0 T)) =
      { valid := false, error := some errTokenExpired } := by
  obtain ⟨hsplit, hne⟩ := generate_decodes fresh1 hs h0 hT hsig
  have hparse : jsParseInt (intToChars (t0 + T)) = some (t0 + T) :=
    jsParseInt_intToChars (by omega)
  constructor
  · rw [verifySessionToken_of_parts hne hsplit, hparse]
    simp only [if_neg (by omega : ¬t > t0 + T), getSessionSecret_config hs fresh2,
      timingSafeEqual_self]
  · rw [verifySessionToken_of_parts hne hsplit, hparse]
    simp only [if_pos hlate]

/-- Witness for C3 at the source's default 7-day TTL. -/
theorem token_roundtrip_witness :
    verifySessionToken demoHmac (some "sec".data) "r2".data 0
        (some (generateSessionToken demoHmac (some "sec".data) "r1".data 0
          604800000)) =
      { valid := true, expiresAt := some 604800000,
        remainingTime := some 604800000 } ∧
    verifySessionToken demoHmac (some "sec".data) "r2".data 604800001
        (some (generateSessionToken demoHmac (some "sec".data) "r1".data 0
          604800000)) =
      { valid := false, error := some errTokenExpired } :=
  token_roundtrip demoHmac "sec".data "r1".data "r2".data 0 604800000 0
    604800001 (by decide) (by decide) (by decide) (by decide) (by decide)
    (by decide) (by decide)

/-! ### Claims about tampered tokens -/

/-- C6 amended: a single-byte substitution anywhere in a valid encoded token
is never accepted, provided the substituted token's supplied signature bytes
differ from the recomputed digest (the no-MAC-collision hypothesis); but the
reported error kind is not always `Invalid signature` — modifications that
break the field format or lower the expiry surface as `Invalid token format`
or `Token expired` instead (see the counterexample). -/
theorem tampered_token_rejected (hmac : JStr → JStr → JStr)
    (envSecret : Option JStr) (fresh fresh2 : JStr) (t0 T now : Int) (i : Nat)
    (c : Char) (tampered : JStr)
    (ht : tampered = substAt (generateSessionToken hmac envSecret fresh t0 T) i c)
    (hH : strToBytes ((jsSplit ':' (jsAtob tampered)).getD 2 []) ≠
      strToBytes (hmac (getSessionSecret envSecret fresh2)
        ((jsSplit ':' (jsAtob tampered)).getD 0 [] ++ ':' ::
         (jsSplit ':' (jsAtob tampered)).getD 1 []))) :
    (verifySessionToken hmac envSecret fresh2 now (some tampered)).valid = false := by
  by_cases hnil : tampered = []
  · simp [verifySessionToken, hnil]
  · simp only [verifySessionToken, if_neg hnil]
    split
    · rfl
    · split
      · rfl
      · split
        · rfl
        · split
          · rfl
          · rfl
          · next heq => exact absurd (timingSafeEqual_eq_of_ok_true heq) hH

/-- C6 counterexample: flipping byte 6 of a concrete valid encoded token turns
the decoded expiry `200` into `000`; the supplied signature no longer matches
the recomputed one, yet `verify` reports `Token expired`, not the
`Invalid signature` the claim promises. -/
theorem tampered_token_counterexample :
    (substAt (generateSessionToken demoHmac (some "sec".data) [] 100 100) 6
      'A').length =
      (generateSessionToken demoHmac (some "sec".data) [] 100 100).length ∧
    (generateSessionToken demoHmac (some "sec".data) [] 100 100).getD 6 ' ' ≠ 'A' ∧
    strToBytes ((jsSplit ':' (jsAtob (substAt (generateSessionToken demoHmac
        (some "sec".data) [] 100 100) 6 'A'))).getD 2 []) ≠
      strToBytes (demoHmac "sec".data
        ((jsSplit ':' (jsAtob (substAt (generateSessionToken demoHmac
          (some "sec".data) [] 100 100) 6 'A'))).getD 0 [] ++ ':' ::
         (jsSplit ':' (jsAtob (substAt (generateSessionToken demoHmac
          (some "sec".data) [] 100 100) 6 'A'))).getD 1 [])) ∧
    verifySessionToken demoHmac (some "sec".data) [] 150
        (some (substAt (generateSessionToken demoHmac (some "sec".data) []
          100 100) 6 'A')) =
      { valid := false, error := some errTokenExpired } ∧
    errTokenExpired ≠ errInvalidSignature := by decide

/-- Witness for amended C6: the same concrete single-byte substitution is
rejected (`valid = false`). -/
theorem tampered_token_rejected_witness :
    (verifySessionToken demoHmac (some "sec".data) [] 150
      (some (substAt (generateSessionToken demoHmac (some "sec".data) []
        100 100) 6 'A'))).valid = false :=
  tampered_token_rejected demoHmac (some "sec".data) [] [] 100 100 150 6 'A'
    (substAt (generateSessionToken demoHmac (some "sec".data) [] 100 100) 6 'A')
    rfl (by decide)

/-! ### Claims about the two endpoint implementations -/

/-- C10 counterexample: in production (`NODE_ENV=production`), a correct
password gets a `Set-Cookie` with the `Secure` attribute from the serverless
handler but without it from the Express route — the two implementations are
not behaviorally equivalent. -/
theorem handlers_differ_in_production :
    (serverlessVerifyHandler demoHmac
      { masterPassword := some "pw".data, sessionSecret := some "sec".data,
        sessionExpiryMs := 1000, isProduction := true }
      [] 0 (ReqPassword.str "pw".data) "ip".data (fun _ => none)).1.setCookie ≠
    (expressVerifyHandler demoHmac
      { masterPassword := some "pw".data, sessionSecret := some "sec".data,
        sessionExpiryMs := 1000, isProduction := true }
      [] 0 (ReqPassword.str "pw".data) "ip".data (fun _ => none)).1.setCookie := by
  decide

/-- C10 amended: outside production, and for requests whose `password` is a
nonempty string, the serverless handler and the Express route agree exactly —
same status, response fields, `Set-Cookie`, and rate-limit store transition.
(They diverge on the `Secure` cookie attribute in production, and on the 400
responses for a missing/empty/non-string password, where Express also skips
the rate limiter.) -/
theorem handlers_equivalent_nonproduction (hmac : JStr → JStr → JStr)
    (env : AuthEnv) (fresh : JStr) (now : Int) (p ip : JStr)
    (store : RateLimitStore) (hprod : env.isProduction = false) (hp : p ≠ []) :
    serverlessVerifyHandler hmac env fresh now (ReqPassword.str p) ip store =
      expressVerifyHandler hmac env fresh now (ReqPassword.str p) ip store := by
  simp only [serverlessVerifyHandler, expressVerifyHandler, if_neg hp, hprod]

/-- Witness for amended C10 at a concrete non-production request. -/
theorem handlers_equivalent_nonproduction_witness :
    serverlessVerifyHandler demoHmac
      { masterPassword := some "pw".data, sessionSecret := some "sec".data,
        sessionExpiryMs := 1000, isProduction := false }
      [] 0 (ReqPassword.str "pw".data) "ip".data (fun _ => none) =
    expressVerifyHandler demoHmac
      { masterPassword := some "pw".data, sessionSecret := some "sec".data,
        sessionExpiryMs := 1000, isProduction := false }
      [] 0 (ReqPassword.str "pw".data) "ip".data (fun _ => none) :=
  handlers_equivalent_nonproduction demoHmac
    { masterPassword := some "pw".data, sessionSecret := some "sec".data,
      sessionExpiryMs := 1000, isProduction := false }
    [] 0 "pw".data "ip".data (fun _ => none) rfl (by decide)

end NGauge
